import Mathlib

/-!
# ClaudexBar: verification of the status-bar usage reporter

Shallow embedding of the TypeScript program (`claudexbar` script) that reads a
persisted provider selector, loads and conditionally refreshes OAuth-style
credentials, fetches usage data (with an RPC fallback for the Codex provider),
and renders a single status-bar JSON payload.

Conventions of the embedding:
* machine numbers are modelled as `Int`/`ℚ` with exact arithmetic;
  `Math.round x` is `⌊x + 1/2⌋` (JS rounds half toward +∞) and
  `Math.floor` on nonnegative values is `Int.floor`;
* I/O effects (file reads, HTTP calls, the RPC subprocess, `Date.now()`,
  `Date.parse`) are passed in explicitly as an environment, and fallible
  code returns `Except`/`Option` mirroring thrown errors;
* JSON values are an inductive type; JS in-place object mutation is modelled
  as functional update (`setKey`) that preserves key order, as JS property
  assignment does.
-/

namespace ClaudexBar

/-- JS whitespace trim on a character list (both ends), the model of
`String.prototype.trim`. -/
def jsTrimL (cs : List Char) : List Char :=
  ((cs.dropWhile Char.isWhitespace).reverse.dropWhile Char.isWhitespace).reverse

/-- JS `value.trim()`. -/
def jsTrim (s : String) : String := String.mk (jsTrimL s.data)

/-- JS `value.trimStart()`. -/
def jsTrimStart (s : String) : String := String.mk (s.data.dropWhile Char.isWhitespace)

/-- Split a string at every whitespace character. Pieces between consecutive
separators are empty and are discarded by every caller (which skips entries
whose trim is empty), so this models JS `value.split(/\s+/)` at the use
sites. -/
def splitWsAux : List Char → List Char → List String
  | [], acc => [String.mk acc.reverse]
  | c :: cs, acc =>
    if c.isWhitespace then String.mk acc.reverse :: splitWsAux cs []
    else splitWsAux cs (c :: acc)

/-- JS `value.split(/\s+/)` (see `splitWsAux`). -/
def jsSplitWs (s : String) : List String := splitWsAux s.data []

/-- JS `Math.round`: round half toward positive infinity. -/
def jsRound (x : ℚ) : Int := ⌊x + 1/2⌋

/-- Source `clamp(value, min, max) = Math.max(min, Math.min(max, value))` from the source. -/
def clampInt (value lo hi : Int) : Int := max lo (min hi value)

/-- The two providers (`CLAUDE_PROVIDER`, `CODEX_PROVIDER`). -/
inductive Provider where
  | claude
  | codex
deriving DecidableEq, Repr

/-- The on-disk spelling of a provider name. -/
def providerName : Provider → String
  | .claude => "claude"
  | .codex => "codex"

/-- Source `readProvider`: read the persisted selector file (its content, or `none`
when the file is missing/unreadable); trim; default to `codex` when absent or
not one of the two provider names. -/
def readProvider (content : Option String) : Provider :=
  match content with
  | some c =>
    let value := jsTrim c
    if value = "claude" then .claude
    else if value = "codex" then .codex
    else .codex
  | none => .codex

/-- Source `nextProvider`: toggle the selector. -/
def nextProvider : Provider → Provider
  | .codex => .claude
  | .claude => .codex

/-- The `Pacing` record returned by `calcPacing`. -/
structure Pacing where
  icon : String
  status : String
  devPct : Int
  timeElapsedPct : Int
deriving DecidableEq, Repr

/-- The record returned on the unknown-pace path of `calcPacing`. -/
def unknownPace : Pacing := ⟨"→", "unknown pace", 0, 0⟩

/-- Source `calcPacing(usagePct, resetAtEpochSeconds, windowMs)` with `Date.now()`
passed in as `now` (milliseconds). -/
def calcPacing (now : Int) (usagePct : ℚ) (resetAtEpochSeconds : Option ℚ)
    (windowMs : Option ℚ) : Pacing :=
  match resetAtEpochSeconds, windowMs with
  | some r, some w =>
    if w ≤ 0 then unknownPace
    else
      let resetAtMs := r * 1000
      let startAtMs := resetAtMs - w
      let elapsedPct : Int := clampInt (jsRound ((((now : ℚ) - startAtMs) / w) * 100)) 0 100
      let pacing : ℚ := if elapsedPct > 0 then usagePct / (elapsedPct : ℚ) else 0
      if pacing > 11/10 then
        let delta := jsRound ((pacing - 1) * 100)
        ⟨"↑", toString delta ++ "% ahead", delta, elapsedPct⟩
      else if pacing > 21/20 then
        let delta := jsRound ((pacing - 1) * 100)
        ⟨"↗", toString delta ++ "% ahead", delta, elapsedPct⟩
      else if pacing < 9/10 then
        let delta := jsRound ((1 - pacing) * 100)
        ⟨"↓", toString delta ++ "% under", -delta, elapsedPct⟩
      else if pacing < 19/20 then
        let delta := jsRound ((1 - pacing) * 100)
        ⟨"↘", toString delta ++ "% under", -delta, elapsedPct⟩
      else ⟨"→", "on track", 0, elapsedPct⟩
  | _, _ => unknownPace

/-- Zero-pad a (nonnegative, below 100) minute count to two digits:
`String(minutes).padStart(2, "0")`. -/
def padTwo (m : Int) : String :=
  if m < 10 then "0" ++ toString m else toString m

/-- Source `formatCountdown(resetAtEpochSeconds)` with `Date.now()` passed as `now`. -/
def formatCountdown (now : Int) (resetAtEpochSeconds : Option ℚ) : String :=
  match resetAtEpochSeconds with
  | none => "n/a"
  | some r =>
    let ms : ℚ := r * 1000 - (now : ℚ)
    if ms ≤ 0 then "now"
    else
      let totalMinutes : Int := ⌊ms / 60000⌋
      let days := totalMinutes / 1440
      let hours := (totalMinutes % 1440) / 60
      let minutes := totalMinutes % 60
      if days > 0 then toString days ++ "d" ++ toString hours ++ "h"
      else toString hours ++ "h" ++ padTwo minutes ++ "m"

/-- Source `deriveCssClass(weeklyPct, weeklyPacing)`: severity class from weekly
usage and the weekly pacing result. -/
def deriveCssClass (weeklyPct : Int) (weeklyPacing : Pacing) : String :=
  let elapsed : Int := if weeklyPacing.timeElapsedPct > 0 then weeklyPacing.timeElapsedPct else 1
  let pace : ℚ := (weeklyPct : ℚ) / (elapsed : ℚ)
  if pace > 11/10 ∨ weeklyPct ≥ 90 then "critical"
  else if pace > 21/20 ∨ weeklyPct ≥ 75 then "warning"
  else if pace < 19/20 ∧ pace ≥ 9/10 then "easy"
  else ""

/-! ## Spec-side transcriptions (for refinement claims)

The following definitions are written from the words of the specification and
claims, to be compared with the definitions translated from the source. -/

/-- The spec's pacing directions. -/
inductive PaceDirection where
  | stronglyAhead
  | ahead
  | onTrack
  | behind
  | stronglyBehind
  | unknown
deriving DecidableEq, Repr

/-- Transcribed from the spec/claim C3: classification by ratio, most-extreme
check first; `>1.10` strongly-ahead, `>1.05` ahead, `<0.90` strongly-behind,
`<0.95` behind, else on-track. -/
def claimPaceDirection (ratio : ℚ) : PaceDirection :=
  if ratio > 11/10 then .stronglyAhead
  else if ratio > 21/20 then .ahead
  else if ratio < 9/10 then .stronglyBehind
  else if ratio < 19/20 then .behind
  else .onTrack

/-- Transcribed from claim C3: elapsedPercent = clamp(round((now − (resetAt −
windowLength)) / windowLength × 100), 0, 100); ratio = usage/elapsed (0 when
elapsed is 0); status text carries round((ratio−1)×100) for ahead cases and
round((1−ratio)×100) for behind cases, no deviation for on-track. `resetAt` is
epoch seconds, `w` the window length in milliseconds. -/
def claimPacing (now : Int) (u resetAt w : ℚ) : Pacing :=
  let e : Int := clampInt (jsRound ((((now : ℚ) - (resetAt * 1000 - w)) / w) * 100)) 0 100
  let ratio : ℚ := if e = 0 then 0 else u / (e : ℚ)
  match claimPaceDirection ratio with
  | .stronglyAhead =>
    ⟨"↑", toString (jsRound ((ratio - 1) * 100)) ++ "% ahead", jsRound ((ratio - 1) * 100), e⟩
  | .ahead =>
    ⟨"↗", toString (jsRound ((ratio - 1) * 100)) ++ "% ahead", jsRound ((ratio - 1) * 100), e⟩
  | .stronglyBehind =>
    ⟨"↓", toString (jsRound ((1 - ratio) * 100)) ++ "% under", -jsRound ((1 - ratio) * 100), e⟩
  | .behind =>
    ⟨"↘", toString (jsRound ((1 - ratio) * 100)) ++ "% under", -jsRound ((1 - ratio) * 100), e⟩
  | _ => ⟨"→", "on track", 0, e⟩

/-- Transcribed from claim C9: "now" when the timestamp is not in the future,
`{days}d{hours}h` when the remaining time is at least 24 hours, and
`{hours}h{minutes:02}m` when it is less. -/
def countdownClaim (now : Int) (r : ℚ) : String :=
  let ms : ℚ := r * 1000 - (now : ℚ)
  if ms ≤ 0 then "now"
  else
    let totalMinutes : Int := ⌊ms / 60000⌋
    if ms ≥ 86400000 then
      toString (totalMinutes / 1440) ++ "d" ++ toString ((totalMinutes % 1440) / 60) ++ "h"
    else
      toString ((totalMinutes % 1440) / 60) ++ "h" ++ padTwo (totalMinutes % 60) ++ "m"

/-- Transcribed from claim C4 as stated: severity class with the weekly pace
ratio "the same usage-over-elapsed ratio as the pacing model (0 when elapsed
percent is 0)". -/
def cssClassClaim (weeklyPct : Int) (weeklyPacing : Pacing) : String :=
  let ratio : ℚ :=
    if weeklyPacing.timeElapsedPct = 0 then 0
    else (weeklyPct : ℚ) / (weeklyPacing.timeElapsedPct : ℚ)
  if ratio > 11/10 ∨ weeklyPct ≥ 90 then "critical"
  else if ratio > 21/20 ∨ weeklyPct ≥ 75 then "warning"
  else if ratio < 19/20 ∧ ratio ≥ 9/10 then "easy"
  else ""

/-- Transcribed from claim C4 as amended: identical, except that the ratio's
denominator is the elapsed percent replaced by 1 when it is not positive. -/
def cssClassAmended (weeklyPct : Int) (weeklyPacing : Pacing) : String :=
  let ratio : ℚ := (weeklyPct : ℚ) / ((max 1 weeklyPacing.timeElapsedPct : Int) : ℚ)
  if ratio > 11/10 ∨ weeklyPct ≥ 90 then "critical"
  else if ratio > 21/20 ∨ weeklyPct ≥ 75 then "warning"
  else if ratio < 19/20 ∧ ratio ≥ 9/10 then "easy"
  else ""

/-! ## JSON model -/

/-- JSON values. JS `NaN`/`Infinity` numbers are excluded (the program's
`toNumber` validator rejects non-finite numbers up front), so numbers are
exact rationals. An object is an ordered association list, as in JS. -/
inductive JSON where
  | str : String → JSON
  | num : ℚ → JSON
  | bool : Bool → JSON
  | null : JSON
  | arr : List JSON → JSON
  | obj : List (String × JSON) → JSON

/-- An object's fields. -/
abbrev JSONObj := List (String × JSON)

/-- Read a property (`o[k]`); `none` both for an absent key and models JS
`undefined`. Reads the first occurrence of the key. -/
def getKey : JSONObj → String → Option JSON
  | [], _ => none
  | (k', v) :: rest, k => if k' = k then some v else getKey rest k

/-- JS property assignment `o[k] = v`: replace the first occurrence in place
(key order preserved), or append when the key is absent. -/
def setKey : JSONObj → String → JSON → JSONObj
  | [], k, v => [(k, v)]
  | (k', v') :: rest, k, v =>
    if k' = k then (k, v) :: rest else (k', v') :: setKey rest k v

/-- Source `isRecord` + property read: returns the object fields when the property
holds an object. One step of `readNestedRecord`. -/
def getRecord (o : JSONObj) (k : String) : Option JSONObj :=
  match getKey o k with
  | some (.obj r) => some r
  | _ => none

/-- JS `Number(string)` restricted to decimal literals with optional sign and
fraction; the empty/whitespace-only string is 0 as in JS. Exotic numeric
syntax (hex, exponent) is out of the program's data domain and maps to `none`
(JS `NaN`, which `toNumber` also rejects). -/
def digitsVal (cs : List Char) : Nat :=
  cs.foldl (fun a c => a * 10 + (c.toNat - 48)) 0

/-- Unsigned part of `Number(string)` parsing: digits with optional single
decimal point. -/
def parseUnsigned (cs : List Char) : Option ℚ :=
  if cs.all Char.isDigit ∧ cs ≠ [] then some (digitsVal cs : ℚ)
  else
    match cs.splitOn '.' with
    | [ip, fp] =>
      if (ip ≠ [] ∨ fp ≠ []) ∧ ip.all Char.isDigit ∧ fp.all Char.isDigit then
        some ((digitsVal ip : ℚ) + (digitsVal fp : ℚ) / ((10 : ℚ) ^ fp.length))
      else none
    | _ => none

/-- JS `Number(value)` on a string (see `parseUnsigned`). -/
def jsStringToNumber (s : String) : Option ℚ :=
  match (jsTrim s).data with
  | [] => some 0
  | c :: rest =>
    if c = '-' then (parseUnsigned rest).map (fun q => -q)
    else if c = '+' then parseUnsigned rest
    else parseUnsigned (c :: rest)

/-- Source `toNumber(value)`: finite numbers pass through; strings are parsed with
`Number`; everything else is `null`. -/
def toNumber : JSON → Option ℚ
  | .num q => some q
  | .str s => jsStringToNumber s
  | _ => none

/-- Source `toStringValue(value)`: a string whose trim is nonempty, else `null`. -/
def toStringValue : JSON → Option String
  | .str s => if jsTrim s ≠ "" then some s else none
  | _ => none

/-- Source `toNumber(o?.k)` convenience used all over the adapters. -/
def numField (o : Option JSONObj) (k : String) : Option ℚ :=
  match o with
  | some r => (getKey r k).bind toNumber
  | none => none

/-! ## Payload model -/

/-- The `class` field of a Waybar payload: `string | string[]`. -/
inductive ClsValue where
  | strv : String → ClsValue
  | listv : List String → ClsValue
deriving DecidableEq, Repr

/-- Source `WaybarPayload` (the `class` field is named `cls` as `class` is reserved
in Lean). -/
structure WaybarPayload where
  text : String
  tooltip : String
  cls : Option ClsValue
  percentage : Option Int
deriving DecidableEq, Repr

/-- Source `errorPayload(message)`. -/
def errorPayload (message : String) : WaybarPayload :=
  { text := "⚠ cdx"
    tooltip := "ClaudexBar\n-----------\n" ++ message
    cls := some (.strv "error")
    percentage := none }

/-- Source `mergeClasses(...values)` at its call sites (each value a plain string;
empty strings are falsy and skipped). Splits on whitespace, trims, drops
empties and duplicates; `undefined` when nothing is left. -/
def mergeClasses (values : List String) : Option (List String) :=
  let merged := values.foldl (fun acc value =>
    if value = "" then acc
    else (jsSplitWs value).foldl (fun acc2 entry =>
      let trimmed := jsTrim entry
      if trimmed = "" then acc2
      else if acc2.contains trimmed then acc2
      else acc2 ++ [trimmed]) acc) []
  if merged.isEmpty then none else some merged

/-- The pacing-arrow glyphs recognized by `addProviderBadge`. -/
def arrowChars : List Char := ['↑', '↗', '→', '↘', '↓']

/-- Source `addProviderBadge(text, badge)`: prefix the one-letter provider badge,
keeping a leading arrow glyph adjacent to the badge. -/
def addProviderBadge (text badge : String) : String :=
  let trimmed := jsTrim text
  match trimmed.data with
  | [] => badge
  | c :: rest =>
    if arrowChars.contains c then
      jsTrim (badge ++ " " ++ String.mk [c] ++ " " ++ jsTrimStart (String.mk rest))
    else badge ++ " " ++ trimmed

/-- The `source` tag of a Codex usage snapshot. -/
inductive UsageSource where
  | oauth
  | rpc
deriving DecidableEq, Repr

/-- Spelling of a snapshot source in the tooltip. -/
def sourceName : UsageSource → String
  | .oauth => "oauth"
  | .rpc => "rpc"

/-- Source `CodexUsageSnapshot`. Percentages are integers (always
`clamp(Math.round ..)`-ed by the parsers); reset times and window lengths stay
rational (the RPC parser does not round them). -/
structure CodexUsageSnapshot where
  sessionPct : Int
  weeklyPct : Int
  sessionResetAt : Option ℚ
  weeklyResetAt : Option ℚ
  sessionWindowMinutes : Option ℚ
  weeklyWindowMinutes : Option ℚ
  credits : Option ℚ
  source : UsageSource
  planType : Option String
deriving DecidableEq, Repr

/-- JS `lines.join("\n")`. -/
def joinLines : List String → String
  | [] => ""
  | [l] => l
  | l :: ls => l ++ "\n" ++ joinLines ls

/-- Source `codexUsageToPayload(usage)`, with `Date.now()` as `now`. The tooltip is
`tooltipLines.join("\n")`. -/
def codexUsageToPayload (now : Int) (usage : CodexUsageSnapshot) : WaybarPayload :=
  let sessionCountdown := formatCountdown now usage.sessionResetAt
  let weeklyCountdown := formatCountdown now usage.weeklyResetAt
  let sessionWindowMs := usage.sessionWindowMinutes.map (· * 60000)
  let weeklyWindowMs := usage.weeklyWindowMinutes.map (· * 60000)
  let sessionPacing := calcPacing now (usage.sessionPct : ℚ) usage.sessionResetAt sessionWindowMs
  let weeklyPacing := calcPacing now (usage.weeklyPct : ℚ) usage.weeklyResetAt weeklyWindowMs
  let cssClass := deriveCssClass usage.weeklyPct weeklyPacing
  { text := addProviderBadge
      (weeklyPacing.icon ++ " ◉" ++ toString usage.weeklyPct ++ "% ⧖"
        ++ toString weeklyPacing.timeElapsedPct ++ "% " ++ weeklyCountdown) "O"
    tooltip := joinLines
      ["ClaudexBar", "-----------",
       "Provider: Codex (" ++ sourceName usage.source ++ ")", "",
       "Session: " ++ toString usage.sessionPct ++ "% (" ++ sessionPacing.status ++ ")",
       "  Resets in " ++ sessionCountdown, "",
       "Weekly: " ++ toString usage.weeklyPct ++ "% (" ++ weeklyPacing.status ++ ")",
       "  Resets in " ++ weeklyCountdown]
    cls := (mergeClasses [cssClass, "provider-codex"]).map ClsValue.listv
    percentage := some usage.sessionPct }

/-! ## Credential store adapters

Network and clock effects are passed explicitly: `now` is `Date.now()` (ms),
`nowIso` is `new Date().toISOString()`, `parseDate` is JS `Date.parse`
(returning ms, `none` for `NaN`), and HTTP responses are inputs. A function's
second component `Option JSONObj` is the record written back to disk
(`none` = no write). -/

/-- An HTTP response as seen by the program: `ok`, `status`, parsed JSON body. -/
structure HttpResponse where
  ok : Bool
  status : Int
  body : JSON

/-- Result of reading+parsing a JSON file: missing/unreadable, unparsable, or
a parsed value. -/
inductive FileRead where
  | missing
  | unparsable
  | parsed : JSON → FileRead

/-- Source `parseIsoDate(value)`: `Date.parse`, `null` on `NaN`, as epoch ms. -/
def parseIsoDate (parseDate : String → Option ℚ) : Option String → Option ℚ
  | none => none
  | some v => parseDate v

/-- Source `parseEpochSecondsFromIso(value)`: `Math.round(Date.parse(value) / 1000)`. -/
def parseEpochSecondsFromIso (parseDate : String → Option ℚ) : Option String → Option ℚ
  | none => none
  | some v =>
    match parseDate v with
    | none => none
    | some ms => some (jsRound (ms / 1000) : ℚ)

/-- Source `CodexAuth.mode`. -/
inductive CodexMode where
  | oauth
  | apikey
deriving DecidableEq, Repr

/-- Source `CodexAuth`: the loaded Codex credential record. `raw` is the whole parsed
file; `lastRefresh` is epoch ms. -/
structure CodexAuth where
  raw : JSONObj
  mode : CodexMode
  accessToken : String
  refreshToken : Option String
  accountId : Option String
  lastRefresh : Option ℚ

/-- Source `needsRefresh(lastRefresh)`: refresh when never refreshed or more than
eight days ago. -/
def needsRefresh (now : Int) : Option ℚ → Bool
  | none => true
  | some t => decide ((now : ℚ) - t > 8 * 24 * 60 * 60 * 1000)

/-- Source `loadCodexAuth()`. -/
def loadCodexAuth (parseDate : String → Option ℚ) : FileRead → Except String CodexAuth
  | .missing => .error "Missing ~/.codex/auth.json. Run: codex login"
  | .unparsable => .error "Invalid ~/.codex/auth.json JSON"
  | .parsed p =>
    match p with
    | .obj parsed =>
      match (getKey parsed "OPENAI_API_KEY").bind toStringValue with
      | some apiKey =>
        .ok { raw := parsed, mode := .apikey, accessToken := apiKey,
              refreshToken := none, accountId := none, lastRefresh := none }
      | none =>
        match getRecord parsed "tokens" with
        | none => .error "No tokens found in ~/.codex/auth.json"
        | some tokens =>
          match (getKey tokens "access_token").bind toStringValue with
          | none => .error "Missing Codex access token. Run: codex login"
          | some accessToken =>
            .ok { raw := parsed, mode := .oauth, accessToken,
                  refreshToken := (getKey tokens "refresh_token").bind toStringValue,
                  accountId := (getKey tokens "account_id").bind toStringValue,
                  lastRefresh := parseIsoDate parseDate
                    ((getKey parsed "last_refresh").bind toStringValue) }
    | _ => .error "Unexpected ~/.codex/auth.json shape"

/-- Source `maybeRefreshCodexToken(auth)`: non-fatal on every failure path — returns
the input unchanged. Only a successful refresh mutates `tokens.access_token`,
`tokens.refresh_token` and `last_refresh` inside `raw` and writes it back
(`saveCodexAuth`), reported as the `some` second component. -/
def maybeRefreshCodexToken (now : Int) (nowIso : String) (response : HttpResponse)
    (auth : CodexAuth) : CodexAuth × Option JSONObj :=
  if auth.mode ≠ .oauth then (auth, none)
  else
    match auth.refreshToken with
    | none => (auth, none)
    | some rt =>
      if ¬needsRefresh now auth.lastRefresh then (auth, none)
      else if ¬response.ok then (auth, none)
      else
        match response.body with
        | .obj payload =>
          let accessToken := ((getKey payload "access_token").bind toStringValue).getD auth.accessToken
          let refreshToken := ((getKey payload "refresh_token").bind toStringValue).getD rt
          match getRecord auth.raw "tokens" with
          | none => (auth, none)
          | some tokens =>
            let tokens' := setKey (setKey tokens "access_token" (.str accessToken))
              "refresh_token" (.str refreshToken)
            let raw' := setKey (setKey auth.raw "tokens" (.obj tokens'))
              "last_refresh" (.str nowIso)
            ({ auth with
                raw := raw'
                accessToken := accessToken
                refreshToken := some refreshToken
                lastRefresh := some (now : ℚ) }, some raw')
        | _ => (auth, none)

/-- Source `ClaudeOAuth`: the loaded Claude credential record. `oauth` is the
`claudeAiOauth` sub-record of `raw` (the same object, by `loadClaudeOAuth`). -/
structure ClaudeOAuth where
  raw : JSONObj
  oauth : JSONObj
  accessToken : String
  refreshToken : Option String
  expiresAtMs : Option ℚ

/-- Source `loadClaudeOAuth()`. -/
def loadClaudeOAuth : FileRead → Except String ClaudeOAuth
  | .missing => .error "Missing ~/.claude/.credentials.json. Run: claude"
  | .unparsable => .error "Invalid ~/.claude/.credentials.json JSON"
  | .parsed p =>
    match p with
    | .obj parsed =>
      match getRecord parsed "claudeAiOauth" with
      | none => .error "Missing claudeAiOauth in credentials. Run: claude"
      | some oauth =>
        match (getKey oauth "accessToken").bind toStringValue with
        | none => .error "Missing Claude access token. Run: claude"
        | some accessToken =>
          .ok { raw := parsed, oauth, accessToken,
                refreshToken := (getKey oauth "refreshToken").bind toStringValue,
                expiresAtMs := (getKey oauth "expiresAt").bind toNumber }
    | _ => .error "Unexpected ~/.claude/.credentials.json shape"

/-- Source `maybeRefreshClaudeToken(auth)`: refresh within the 5-minute buffer before
expiry; a non-success refresh response **throws** (`Except.error`). A
successful refresh mutates `accessToken`/`refreshToken`/`expiresAt` inside the
`claudeAiOauth` sub-record and writes `raw` back (`saveClaudeOAuth`), reported
as the `some` second component. -/
def maybeRefreshClaudeToken (now : Int) (response : HttpResponse)
    (auth : ClaudeOAuth) : Except String (ClaudeOAuth × Option JSONObj) :=
  match auth.refreshToken with
  | none => .ok (auth, none)
  | some rt =>
    let shouldRefresh :=
      match auth.expiresAtMs with
      | none => false
      | some e => decide (e < (now : ℚ) + 5 * 60 * 1000)
    if !shouldRefresh then .ok (auth, none)
    else if ¬response.ok then
      .error ("Claude token refresh failed: " ++ toString response.status)
    else
      match response.body with
      | .obj payload =>
        match (getKey payload "access_token").bind toStringValue,
            (getKey payload "expires_in").bind toNumber with
        | some accessToken, some expiresIn =>
          let refreshToken := ((getKey payload "refresh_token").bind toStringValue).getD rt
          let oauth' := setKey (setKey (setKey auth.oauth
            "accessToken" (.str accessToken))
            "refreshToken" (.str refreshToken))
            "expiresAt" (.num ((now : ℚ) + expiresIn * 1000))
          let raw' := setKey auth.raw "claudeAiOauth" (.obj oauth')
          .ok ({ auth with
                  raw := raw'
                  oauth := oauth'
                  accessToken := accessToken
                  refreshToken := some refreshToken
                  expiresAtMs := (getKey oauth' "expiresAt").bind toNumber }, some raw')
        | _, _ => .error "Incomplete Claude refresh response"
      | _ => .error "Invalid Claude token refresh payload"

/-! ## Usage source adapters and orchestrator

The environment carries every effectful input of one invocation: the clock,
the provider-selector file content, the credential files, the HTTP responses
(the usage APIs as functions of the bearer token sent), and the outcome of the
RPC subprocess exchange (the `result` record of the id=3 response, or the
error raised by spawn failure/timeout/early exit/missing result). -/

/-- All effectful inputs of one invocation. -/
structure Env where
  now : Int
  nowIso : String
  parseDate : String → Option ℚ
  providerFile : Option String
  claudeCreds : FileRead
  claudeRefreshResponse : HttpResponse
  claudeUsageApi : String → HttpResponse
  codexCreds : FileRead
  codexRefreshResponse : HttpResponse
  codexUsageApi : String → HttpResponse
  rpcOutcome : Except String JSONObj

/-- Source `parseCodexOAuthUsage(raw)`. -/
def parseCodexOAuthUsage (raw : JSON) : Except String CodexUsageSnapshot :=
  match raw with
  | .obj o =>
    let rateLimit := getRecord o "rate_limit"
    let primary :=
      match rateLimit with
      | some rl => getRecord rl "primary_window"
      | none => none
    let secondary :=
      match rateLimit with
      | some rl => getRecord rl "secondary_window"
      | none => none
    match numField primary "used_percent", numField secondary "used_percent" with
    | some sessionPct, some weeklyPct =>
      .ok { sessionPct := clampInt (jsRound sessionPct) 0 100
            weeklyPct := clampInt (jsRound weeklyPct) 0 100
            sessionResetAt := (numField primary "reset_at").map (fun q => (jsRound q : ℚ))
            weeklyResetAt := (numField secondary "reset_at").map (fun q => (jsRound q : ℚ))
            sessionWindowMinutes := (numField primary "limit_window_seconds").map
              (fun s => (max 1 (jsRound (s / 60)) : ℚ))
            weeklyWindowMinutes := (numField secondary "limit_window_seconds").map
              (fun s => (max 1 (jsRound (s / 60)) : ℚ))
            credits := numField (getRecord o "credits") "balance"
            source := .oauth
            planType := (getKey o "plan_type").bind toStringValue }
    | _, _ => .error "OAuth payload missing rate-limit windows"
  | _ => .error "Codex OAuth response is not an object"

/-- Source `fetchCodexUsageViaOAuth()`: load, maybe-refresh, authenticated GET on the
usage endpoint with the (possibly refreshed) bearer token, parse. -/
def fetchCodexUsageViaOAuth (env : Env) : Except String CodexUsageSnapshot :=
  match loadCodexAuth env.parseDate env.codexCreds with
  | .error e => .error e
  | .ok loaded =>
    let auth := (maybeRefreshCodexToken env.now env.nowIso env.codexRefreshResponse loaded).1
    let response := env.codexUsageApi auth.accessToken
    if response.ok then parseCodexOAuthUsage response.body
    else .error ("OAuth API " ++ toString response.status)

/-- The rate-limits resolution of `fetchCodexUsageViaRpc`:
`rateLimitsByLimitId.codex ?? rateLimits`. -/
def resolveRpcRateLimits (rateLimitResult : JSONObj) : Option JSONObj :=
  let rateLimitsById := getRecord rateLimitResult "rateLimitsByLimitId"
  let codexLimit :=
    match rateLimitsById with
    | some r => getRecord r "codex"
    | none => none
  match codexLimit with
  | some r => some r
  | none => getRecord rateLimitResult "rateLimits"

/-- The snapshot-assembly part of `fetchCodexUsageViaRpc` applied to the id=3
`result` record. -/
def parseRpcUsage (rateLimitResult : JSONObj) : Except String CodexUsageSnapshot :=
  match resolveRpcRateLimits rateLimitResult with
  | none => .error "RPC response missing rate limits"
  | some rl =>
    let primary := getRecord rl "primary"
    let secondary := getRecord rl "secondary"
    let creditsNode := getRecord rl "credits"
    match numField primary "usedPercent", numField secondary "usedPercent" with
    | some sessionPct, some weeklyPct =>
      .ok { sessionPct := clampInt (jsRound sessionPct) 0 100
            weeklyPct := clampInt (jsRound weeklyPct) 0 100
            sessionResetAt := numField primary "resetsAt"
            weeklyResetAt := numField secondary "resetsAt"
            sessionWindowMinutes := numField primary "windowDurationMins"
            weeklyWindowMinutes := numField secondary "windowDurationMins"
            credits := numField creditsNode "balance"
            source := .rpc
            planType := (getKey rl "planType").bind toStringValue }
    | _, _ => .error "RPC missing usage windows"

/-- Source `fetchCodexUsageViaRpc()`: the subprocess JSON-RPC exchange (spawn,
line-buffered stdio, initialize/initialized/account-read/rateLimits-read,
timeout and kill) is abstracted as `env.rpcOutcome`; its successful `result`
record is assembled into a snapshot with `source = rpc`. -/
def fetchCodexUsageViaRpc (env : Env) : Except String CodexUsageSnapshot :=
  match env.rpcOutcome with
  | .error e => .error e
  | .ok rateLimitResult => parseRpcUsage rateLimitResult

/-- Source `fetchClaudePayload()`: load, maybe-refresh (fatal on refresh failure),
authenticated GET on the usage endpoint, parse and render. -/
def fetchClaudePayload (env : Env) : Except String WaybarPayload :=
  match loadClaudeOAuth env.claudeCreds with
  | .error e => .error e
  | .ok loaded =>
    match maybeRefreshClaudeToken env.now env.claudeRefreshResponse loaded with
    | .error e => .error e
    | .ok (auth, _) =>
      let response := env.claudeUsageApi auth.accessToken
      if !response.ok then .error ("Claude usage API " ++ toString response.status)
      else
        match response.body with
        | .obj body =>
          match getRecord body "five_hour", getRecord body "seven_day" with
          | some sessionWindow, some weeklyWindow =>
            match (getKey sessionWindow "utilization").bind toNumber,
                (getKey weeklyWindow "utilization").bind toNumber with
            | some sessionPctRaw, some weeklyPctRaw =>
              let sessionResetIso := (getKey sessionWindow "resets_at").bind toStringValue
              let weeklyResetIso := (getKey weeklyWindow "resets_at").bind toStringValue
              let sessionPct := clampInt (jsRound sessionPctRaw) 0 100
              let weeklyPct := clampInt (jsRound weeklyPctRaw) 0 100
              let sessionResetAt := parseEpochSecondsFromIso env.parseDate sessionResetIso
              let weeklyResetAt := parseEpochSecondsFromIso env.parseDate weeklyResetIso
              let sessionPacing := calcPacing env.now (sessionPct : ℚ) sessionResetAt
                (some (5 * 60 * 60 * 1000))
              let weeklyPacing := calcPacing env.now (weeklyPct : ℚ) weeklyResetAt
                (some (7 * 24 * 60 * 60 * 1000))
              let cssClass := deriveCssClass weeklyPct weeklyPacing
              let sessionCountdown := formatCountdown env.now sessionResetAt
              let weeklyCountdown := formatCountdown env.now weeklyResetAt
              .ok { text := addProviderBadge
                      (weeklyPacing.icon ++ " ◉" ++ toString weeklyPct ++ "% ⧖"
                        ++ toString weeklyPacing.timeElapsedPct ++ "% " ++ weeklyCountdown) "A"
                    tooltip := joinLines
                      ["ClaudexBar", "-----------", "Provider: Claude (oauth)", "",
                       "Session: " ++ toString sessionPct ++ "% ("
                         ++ sessionPacing.status ++ ")",
                       "  Resets in " ++ sessionCountdown, "",
                       "Weekly: " ++ toString weeklyPct ++ "% ("
                         ++ weeklyPacing.status ++ ")",
                       "  Resets in " ++ weeklyCountdown]
                    cls := (mergeClasses [cssClass, "provider-claude"]).map ClsValue.listv
                    percentage := some sessionPct }
            | _, _ => .error "Claude usage percentages missing"
          | _, _ => .error "Claude usage windows missing"
        | _ => .error "Invalid Claude usage payload"

/-- The Codex arm of `renderClaudex`, instrumented with whether the RPC
fallback was invoked (the second component). The fallback runs only inside
the `catch` of the primary OAuth fetch. -/
def renderCodexTraced (env : Env) : WaybarPayload × Bool :=
  match fetchCodexUsageViaOAuth env with
  | .ok usage => (codexUsageToPayload env.now usage, false)
  | .error oauthMessage =>
    match fetchCodexUsageViaRpc env with
    | .ok usage => (codexUsageToPayload env.now usage, true)
    | .error rpcMessage =>
      (errorPayload ("Codex failed\nOAuth: " ++ oauthMessage ++ "\nRPC: " ++ rpcMessage), true)

/-- Source `renderClaudex(provider)`: every failure of a fetch path is caught and
turned into an `errorPayload`; the function is total. -/
def renderClaudex (env : Env) : Provider → WaybarPayload
  | .claude =>
    match fetchClaudePayload env with
    | .ok payload => payload
    | .error message => errorPayload ("Claude failed: " ++ message)
  | .codex => (renderCodexTraced env).1

/-- Parsed CLI arguments. -/
structure Args where
  provider : Option Provider
  toggleProvider : Bool
deriving DecidableEq, Repr

/-- Source `parseArgs(argv)`: `--toggle` sets the flag; `--provider` consumes the
next argument only when it is a valid provider name; anything else is
ignored. -/
def parseArgsGo : List String → Args → Args
  | [], acc => acc
  | a :: rest, acc =>
    if a = "--toggle" then parseArgsGo rest { acc with toggleProvider := true }
    else if a = "--provider" then
      match rest with
      | next :: rest' =>
        if next = "claude" then parseArgsGo rest' { acc with provider := some .claude }
        else if next = "codex" then parseArgsGo rest' { acc with provider := some .codex }
        else parseArgsGo (next :: rest') acc
      | [] => acc
    else parseArgsGo rest acc
termination_by l _ => l.length
decreasing_by all_goals simp_arith

/-- Source `parseArgs(argv)` (see `parseArgsGo`). -/
def parseArgs (argv : List String) : Args :=
  parseArgsGo argv { provider := none, toggleProvider := false }

/-- One line printed to stdout: the JSON payload (`console.log(JSON.stringify
(payload))`) or a plain provider name. -/
inductive OutputLine where
  | json : WaybarPayload → OutputLine
  | plain : String → OutputLine
deriving DecidableEq, Repr

/-- Observable outcome of one invocation: the stdout lines in order, the
provider-selector writes in order, how many re-poll signals were sent to the
host (`refreshWaybar`), and the process exit code. -/
structure MainResult where
  outputs : List OutputLine
  writes : List Provider
  signals : Nat
  exitCode : Nat
deriving DecidableEq, Repr

/-- Source `main()` (plus the top-level `.catch`, which cannot fire since every
failure is already caught inside `renderClaudex`; the process therefore
resolves normally and exits 0). `writeProvider` writes `name ++ "\n"`, and a
later `readProvider` reads the file as just written. -/
def runMain (env : Env) (argv : List String) : MainResult :=
  let args := parseArgs argv
  if args.toggleProvider then
    let current := readProvider env.providerFile
    let next := nextProvider current
    match args.provider with
    | none =>
      { outputs := [.plain (providerName next)], writes := [next], signals := 1, exitCode := 0 }
    | some p =>
      let fileAfter := some (providerName p ++ "\n")
      let provider := readProvider fileAfter
      { outputs := [.json (renderClaudex env provider)], writes := [next, p],
        signals := 0, exitCode := 0 }
  else
    match args.provider with
    | some p =>
      { outputs := [.plain (providerName p)], writes := [p], signals := 1, exitCode := 0 }
    | none =>
      let provider := readProvider env.providerFile
      { outputs := [.json (renderClaudex env provider)], writes := [], signals := 0, exitCode := 0 }

/-! ## Auxiliary observables and concrete test fixtures -/

/-- Whether a needle character list occurs at the head of a haystack. -/
def atHeadL : List Char → List Char → Bool
  | [], _ => true
  | _ :: _, [] => false
  | n :: ns, h :: hs => n == h && atHeadL ns hs

/-- Whether a needle character list occurs anywhere in a haystack. -/
def containsSubL (needle : List Char) : List Char → Bool
  | [] => atHeadL needle []
  | c :: cs => atHeadL needle (c :: cs) || containsSubL needle cs

/-- Substring occurrence test on strings (executable). -/
def strContains (hay needle : String) : Bool := containsSubL needle.data hay.data

/-- Discriminator: did `maybeRefreshClaudeToken` succeed? -/
def isOkRefresh : Except String (ClaudeOAuth × Option JSONObj) → Bool
  | .ok _ => true
  | .error _ => false

/-- A loaded Codex credential in OAuth mode without a refresh token. -/
def codexAuthSample : CodexAuth :=
  { raw := [("tokens", .obj [("access_token", .str "codex-token")])]
    mode := .oauth
    accessToken := "codex-token"
    refreshToken := none
    accountId := none
    lastRefresh := none }

/-- A loaded Codex credential refreshed at epoch 0 (no refresh needed at
`now = 0`), with an unrecognized extra key to observe write-backs. -/
def codexAuthFresh : CodexAuth :=
  { raw := [("tokens", .obj [("access_token", .str "codex-token"),
        ("refresh_token", .str "codex-refresh"), ("vendor_extra", .str "keep-me")]),
      ("last_refresh", .str "1970-01-01T00:00:00.000Z"), ("future_field", .num 42)]
    mode := .oauth
    accessToken := "codex-token"
    refreshToken := some "codex-refresh"
    accountId := none
    lastRefresh := some 0 }

/-- A loaded Claude credential whose token expired at epoch 0. -/
def claudeAuthExpired : ClaudeOAuth :=
  { raw := [("claudeAiOauth", .obj [("accessToken", .str "old-token"),
      ("refreshToken", .str "refresh-1"), ("expiresAt", .num 0)])]
    oauth := [("accessToken", .str "old-token"),
      ("refreshToken", .str "refresh-1"), ("expiresAt", .num 0)]
    accessToken := "old-token"
    refreshToken := some "refresh-1"
    expiresAtMs := some 0 }

/-- A concrete environment: the Codex OAuth usage endpoint answers HTTP 500,
while the RPC subprocess succeeds with session 7%, weekly 55%. -/
def env500 : Env :=
  { now := 0
    nowIso := "1970-01-01T00:00:00.000Z"
    parseDate := fun _ => none
    providerFile := some "codex"
    claudeCreds := .missing
    claudeRefreshResponse := { ok := true, status := 200, body := .null }
    claudeUsageApi := fun _ => { ok := false, status := 500, body := .null }
    codexCreds := .parsed (.obj [("tokens", .obj [("access_token", .str "codex-token")])])
    codexRefreshResponse := { ok := false, status := 500, body := .null }
    codexUsageApi := fun _ => { ok := false, status := 500, body := .null }
    rpcOutcome := .ok [("rateLimits", .obj
      [("primary", .obj [("usedPercent", .num 7)]),
       ("secondary", .obj [("usedPercent", .num 55)])])] }

/-- The snapshot the RPC fallback produces in `env500`. -/
def rpcSnap755 : CodexUsageSnapshot :=
  { sessionPct := 7
    weeklyPct := 55
    sessionResetAt := none
    weeklyResetAt := none
    sessionWindowMinutes := none
    weeklyWindowMinutes := none
    credits := none
    source := .rpc
    planType := none }

/-! ## Helper lemmas -/

theorem strData_append (a b : String) : (a ++ b).data = a.data ++ b.data := by
  cases a
  cases b
  rfl

theorem getKey_setKey_self (o : JSONObj) (k : String) (v : JSON) :
    getKey (setKey o k v) k = some v := by
  induction o with
  | nil => simp [setKey, getKey]
  | cons hd tl ih =>
    by_cases h : hd.1 = k
    · simp [setKey, getKey, h]
    · simp [setKey, getKey, h, ih]

theorem getKey_setKey_ne (o : JSONObj) (k k' : String) (v : JSON) (h : k' ≠ k) :
    getKey (setKey o k' v) k = getKey o k := by
  induction o with
  | nil => simp [setKey, getKey, h]
  | cons hd tl ih =>
    by_cases h2 : hd.1 = k'
    · simp [setKey, getKey, h2, h]
    · by_cases h3 : hd.1 = k
      · simp [setKey, getKey, h2, h3, Ne.symm h]
      · simp [setKey, getKey, h2, h3, ih]

theorem mem_data_infix_joinLines (lines : List String) (l : String) (h : l ∈ lines) :
    l.data <:+: (joinLines lines).data := by
  induction lines with
  | nil => cases h
  | cons hd tl ih =>
    rcases List.mem_cons.mp h with rfl | h
    · cases tl with
      | nil => exact List.infix_refl _
      | cons hd2 tl2 =>
        refine ⟨[], ("\n" ++ joinLines (hd2 :: tl2)).data, ?_⟩
        simp [joinLines, strData_append]
    · cases tl with
      | nil => cases h
      | cons hd2 tl2 =>
        have h1 : (joinLines (hd2 :: tl2)).data <:+:
            (joinLines (hd :: hd2 :: tl2)).data := by
          refine ⟨(hd ++ "\n").data, [], ?_⟩
          simp [joinLines, strData_append]
        exact (ih h).trans h1

theorem ite_pos_eq_max (e : Int) : (if e > 0 then e else 1) = max 1 e := by
  rcases lt_or_le 0 e with h | h
  · rw [if_pos h, max_eq_right (by omega)]
  · rw [if_neg (not_lt.mpr h), max_eq_left (by omega)]

/-! ## Claim theorems -/

/-- C6: `calcPacing` with an unknown reset time or unknown window length
returns the unknown-pace record — icon "→", status "unknown pace", deviation
0 and elapsed-time percent 0 — for every usage percent, and never fails (it
is a total function of its inputs). -/
theorem calcPacing_unknown_inputs :
    (∀ (now : Int) (u : ℚ) (w : Option ℚ), calcPacing now u none w = unknownPace)
    ∧ (∀ (now : Int) (u : ℚ) (r : Option ℚ), calcPacing now u r none = unknownPace)
    ∧ unknownPace = ⟨"→", "unknown pace", 0, 0⟩ := by
  refine ⟨fun now u w => ?_, fun now u r => ?_, rfl⟩
  · cases w <;> rfl
  · cases r <;> rfl

/-- C8: toggling the provider selector twice returns to the original value;
reading a missing or corrupt state file (content not one of the two provider
names after trimming) yields the default `codex`, so toggling from such a
state writes `claude`. -/
theorem provider_toggle_involutive :
    (∀ p, nextProvider (nextProvider p) = p)
    ∧ readProvider none = Provider.codex
    ∧ nextProvider (readProvider none) = Provider.claude
    ∧ (∀ s, jsTrim s ≠ "claude" → jsTrim s ≠ "codex" →
        readProvider (some s) = Provider.codex
          ∧ nextProvider (readProvider (some s)) = Provider.claude) := by
  refine ⟨fun p => by cases p <;> rfl, rfl, rfl, fun s h1 h2 => ?_⟩
  have h : readProvider (some s) = Provider.codex := by
    simp only [readProvider]
    rw [if_neg h1, if_neg h2]
  refine ⟨h, ?_⟩
  rw [h]
  rfl

/-- Witness for `provider_toggle_involutive` at the corrupt file content
"garbage". -/
theorem provider_toggle_involutive_witness :
    readProvider (some "garbage") = Provider.codex
      ∧ nextProvider (readProvider (some "garbage")) = Provider.claude :=
  provider_toggle_involutive.2.2.2 "garbage" (by decide) (by decide)

/-- C9: the countdown renders "now" when the reset timestamp is not in the
future, `{days}d{hours}h` when the remaining time is at least 24 hours, and
`{hours}h{minutes:02}m` when less (`countdownClaim` transcribes the claim);
30 minutes remaining renders "0h30m", 25 hours renders "1d1h", and a past
timestamp renders "now". -/
theorem formatCountdown_meets_spec :
    (∀ (now : Int) (r : ℚ), formatCountdown now (some r) = countdownClaim now r)
    ∧ formatCountdown 0 (some 1800) = "0h30m"
    ∧ formatCountdown 0 (some 90000) = "1d1h"
    ∧ formatCountdown 1000 (some 0) = "now" := by
  refine ⟨fun now r => ?_, ?_, ?_, ?_⟩
  · simp only [formatCountdown, countdownClaim]
    set ms : ℚ := r * 1000 - (now : ℚ) with hms
    by_cases h : ms ≤ 0
    · rw [if_pos h, if_pos h]
    · rw [if_neg h, if_neg h]
      have hpos : 0 < ms := lt_of_not_le h
      have h0 : 0 ≤ ⌊ms / 60000⌋ := Int.floor_nonneg.mpr (by positivity)
      have hiff : (⌊ms / 60000⌋ / 1440 > 0) ↔ (ms ≥ 86400000) := by
        constructor
        · intro hgt
          have h1440 : (1440 : Int) ≤ ⌊ms / 60000⌋ := by omega
          have h2 := Int.le_floor.mp h1440
          rw [le_div_iff₀ (by norm_num : (0 : ℚ) < 60000)] at h2
          push_cast at h2
          linarith
        · intro hge
          have h2 : (1440 : ℚ) ≤ ms / 60000 := by
            rw [le_div_iff₀ (by norm_num : (0 : ℚ) < 60000)]
            linarith
          have h1440 : (1440 : Int) ≤ ⌊ms / 60000⌋ := Int.le_floor.mpr (by push_cast; linarith)
          omega
      by_cases hd : ⌊ms / 60000⌋ / 1440 > 0
      · rw [if_pos hd, if_pos (hiff.mp hd)]
      · rw [if_neg hd, if_neg (fun hge => hd (hiff.mpr hge))]
  · norm_num [formatCountdown, padTwo]
    decide
  · norm_num [formatCountdown, padTwo]
    decide
  · norm_num [formatCountdown]

/-- C3: for every usage percent in [0,100], known reset time and positive
window length, `calcPacing` computes the elapsed percent, the
usage-over-elapsed ratio (0 when elapsed is 0) and the five-way
classification with thresholds, boundary strictness and status text exactly
as the claim states (`claimPacing`/`claimPaceDirection`); in particular a
ratio of exactly 1.10 classifies ahead (not strongly-ahead) and exactly 0.90
behind (not strongly-behind), checked concretely at usage 99/elapsed 90 and
usage 81/elapsed 90. -/
theorem calcPacing_meets_spec :
    (∀ (now : Int) (u resetAt w : ℚ), 0 ≤ u → u ≤ 100 → 0 < w →
      calcPacing now u (some resetAt) (some w) = claimPacing now u resetAt w)
    ∧ claimPaceDirection (11/10) = .ahead
    ∧ claimPaceDirection (9/10) = .behind
    ∧ calcPacing 90000 99 (some 100) (some 100000) = ⟨"↗", "10% ahead", 10, 90⟩
    ∧ calcPacing 90000 81 (some 100) (some 100000) = ⟨"↘", "10% under", -10, 90⟩ := by
  refine ⟨?_, by norm_num [claimPaceDirection], by norm_num [claimPaceDirection], ?_, ?_⟩
  · intro now u resetAt w hu0 hu1 hw
    unfold calcPacing claimPacing
    dsimp only
    rw [if_neg (not_le.mpr hw)]
    set e : Int := clampInt (jsRound ((((now : ℚ) - (resetAt * 1000 - w)) / w) * 100)) 0 100
      with hedef
    have he0 : 0 ≤ e := le_max_left 0 _
    have hratio : (if e = 0 then (0 : ℚ) else u / (e : ℚ))
        = (if e > 0 then u / (e : ℚ) else 0) := by
      rcases lt_or_eq_of_le he0 with h | h
      · rw [if_neg (by omega : ¬e = 0), if_pos h]
      · rw [if_pos h.symm, if_neg (by omega : ¬e > 0)]
    rw [hratio]
    set pacing : ℚ := if e > 0 then u / (e : ℚ) else 0 with hpdef
    unfold claimPaceDirection
    split_ifs <;> rfl
  · norm_num [calcPacing, clampInt, jsRound, unknownPace]
    decide
  · norm_num [calcPacing, clampInt, jsRound, unknownPace]
    decide

/-- Witness for `calcPacing_meets_spec` at a concrete input. -/
theorem calcPacing_meets_spec_witness :
    calcPacing 1000 50 (some 2) (some 1000) = claimPacing 1000 50 2 1000 :=
  calcPacing_meets_spec.1 1000 50 2 1000 (by norm_num) (by norm_num) (by norm_num)

/-- C4 counterexample: at weekly usage 50% and elapsed-time percent 0 (the
weekly pacing of a snapshot with unknown reset data) the code's severity
class is "critical" — `deriveCssClass` divides by 1 instead of treating the
ratio as 0 — while the claim's formula (`cssClassClaim`, ratio 0 when elapsed
is 0) yields the empty class. -/
theorem deriveCssClass_claim_cex :
    deriveCssClass 50 unknownPace = "critical"
      ∧ cssClassClaim 50 unknownPace = ""
      ∧ deriveCssClass 50 unknownPace ≠ cssClassClaim 50 unknownPace := by
  have h1 : deriveCssClass 50 unknownPace = "critical" := by
    unfold deriveCssClass unknownPace
    norm_num
  have h2 : cssClassClaim 50 unknownPace = "" := by
    unfold cssClassClaim unknownPace
    norm_num
  refine ⟨h1, h2, ?_⟩
  rw [h1, h2]
  decide

/-- C4 (amended): for every weekly percent and pacing record, the rendered
severity class equals the claim's cascade with the usage-over-elapsed ratio's
denominator replaced by 1 when the elapsed percent is not positive
(`cssClassAmended`); and the provider badge class `provider-<name>` is always
appended alongside the severity class with duplicates removed. -/
theorem deriveCssClass_amended_ok :
    (∀ (w : Int) (p : Pacing), deriveCssClass w p = cssClassAmended w p)
    ∧ (∀ (w : Int) (p : Pacing) (prov : Provider),
        mergeClasses [deriveCssClass w p, "provider-" ++ providerName prov]
          = some (if deriveCssClass w p = ""
              then ["provider-" ++ providerName prov]
              else [deriveCssClass w p, "provider-" ++ providerName prov])) := by
  have hmax : ∀ (w : Int) (p : Pacing), deriveCssClass w p = cssClassAmended w p := by
    intro w p
    unfold deriveCssClass cssClassAmended
    dsimp only
    rw [ite_pos_eq_max p.timeElapsedPct]
  refine ⟨hmax, fun w p prov => ?_⟩
  have h4 : deriveCssClass w p = "critical" ∨ deriveCssClass w p = "warning"
      ∨ deriveCssClass w p = "easy" ∨ deriveCssClass w p = "" := by
    unfold deriveCssClass
    dsimp only
    split_ifs <;> simp
  cases prov <;> rcases h4 with h | h | h | h <;> rw [h] <;> decide

theorem codexRefresh_noop_of_not_ok (now : Int) (nowIso : String) (resp : HttpResponse)
    (auth : CodexAuth) (hok : resp.ok = false) :
    maybeRefreshCodexToken now nowIso resp auth = (auth, none) := by
  unfold maybeRefreshCodexToken
  by_cases hm : auth.mode ≠ CodexMode.oauth
  · rw [if_pos hm]
  · rw [if_neg hm]
    cases hrt : auth.refreshToken with
    | none => rfl
    | some rt =>
      dsimp only
      by_cases hn : needsRefresh now auth.lastRefresh = true
      · rw [if_neg (by simp [hn]), if_pos (by simp [hok])]
      · rw [if_pos hn]

theorem claudeRefresh_error_of_not_ok (now : Int) (resp : HttpResponse)
    (auth : ClaudeOAuth) (rt : String) (e : ℚ) (hok : resp.ok = false)
    (hrt : auth.refreshToken = some rt) (hexp : auth.expiresAtMs = some e)
    (hlt : e < (now : ℚ) + 5 * 60 * 1000) :
    maybeRefreshClaudeToken now resp auth
      = .error ("Claude token refresh failed: " ++ toString resp.status) := by
  unfold maybeRefreshClaudeToken
  rw [hrt]
  dsimp only
  rw [hexp]
  simp [decide_eq_true hlt, hok]

/-- C2 counterexample: for the Claude provider a non-success refresh response
does not leave the credential unchanged and does not let the usage fetch
proceed — `maybeRefreshClaudeToken` throws. Concretely: an expired credential
and a refresh response with HTTP status 500. -/
theorem claude_refresh_failure_cex :
    maybeRefreshClaudeToken 1000000 { ok := false, status := 500, body := .null }
        claudeAuthExpired
      = .error "Claude token refresh failed: 500"
    ∧ isOkRefresh (maybeRefreshClaudeToken 1000000
        { ok := false, status := 500, body := .null } claudeAuthExpired) = false := by
  have h := claudeRefresh_error_of_not_ok 1000000
    { ok := false, status := 500, body := .null } claudeAuthExpired "refresh-1" 0
    rfl rfl rfl (by norm_num)
  constructor
  · rw [h]
    exact congrArg Except.error (by decide)
  · rw [h]
    rfl

/-- C2 (amended): on a non-success token-refresh HTTP status the Codex
adapter treats the refresh as failed non-fatally — `maybeRefreshCodexToken`
returns the input credential unchanged with no write, and the usage fetch is
still attempted with the stale token — while the Claude adapter throws
`"Claude token refresh failed: <status>"` whenever a refresh was due, so the
Claude usage fetch is not attempted and the error propagates. -/
theorem refresh_failure_policy :
    (∀ (now : Int) (nowIso : String) (resp : HttpResponse) (auth : CodexAuth),
      resp.ok = false → maybeRefreshCodexToken now nowIso resp auth = (auth, none))
    ∧ (∀ (env : Env) (loaded : CodexAuth),
      env.codexRefreshResponse.ok = false →
      loadCodexAuth env.parseDate env.codexCreds = .ok loaded →
      fetchCodexUsageViaOAuth env =
        (if (env.codexUsageApi loaded.accessToken).ok
          then parseCodexOAuthUsage (env.codexUsageApi loaded.accessToken).body
          else .error ("OAuth API " ++ toString (env.codexUsageApi loaded.accessToken).status)))
    ∧ (∀ (now : Int) (resp : HttpResponse) (auth : ClaudeOAuth) (rt : String) (e : ℚ),
      resp.ok = false → auth.refreshToken = some rt → auth.expiresAtMs = some e →
      e < (now : ℚ) + 5 * 60 * 1000 →
      maybeRefreshClaudeToken now resp auth
        = .error ("Claude token refresh failed: " ++ toString resp.status))
    ∧ (∀ (env : Env) (loaded : ClaudeOAuth) (rt : String) (e : ℚ),
      env.claudeRefreshResponse.ok = false →
      loadClaudeOAuth env.claudeCreds = .ok loaded →
      loaded.refreshToken = some rt → loaded.expiresAtMs = some e →
      e < (env.now : ℚ) + 5 * 60 * 1000 →
      fetchClaudePayload env
        = .error ("Claude token refresh failed: "
            ++ toString env.claudeRefreshResponse.status)) := by
  refine ⟨fun now nowIso resp auth hok => codexRefresh_noop_of_not_ok now nowIso resp auth hok,
    fun env loaded hok hload => ?_,
    fun now resp auth rt e hok hrt hexp hlt =>
      claudeRefresh_error_of_not_ok now resp auth rt e hok hrt hexp hlt,
    fun env loaded rt e hok hload hrt hexp hlt => ?_⟩
  · unfold fetchCodexUsageViaOAuth
    rw [hload]
    dsimp only
    rw [codexRefresh_noop_of_not_ok env.now env.nowIso env.codexRefreshResponse loaded hok]
  · unfold fetchClaudePayload
    rw [hload]
    dsimp only
    rw [claudeRefresh_error_of_not_ok env.now env.claudeRefreshResponse loaded rt e hok
      hrt hexp hlt]

/-- Witness for `refresh_failure_policy` at a concrete input: a 500 refresh
response leaves the Codex credential untouched. -/
theorem refresh_failure_policy_witness :
    maybeRefreshCodexToken 0 "t" { ok := false, status := 500, body := .null } codexAuthSample
      = (codexAuthSample, none) :=
  refresh_failure_policy.1 0 "t" { ok := false, status := 500, body := .null }
    codexAuthSample rfl

theorem codexRefresh_noop_of_fresh (now : Int) (nowIso : String) (resp : HttpResponse)
    (auth : CodexAuth) (h : needsRefresh now auth.lastRefresh = false) :
    maybeRefreshCodexToken now nowIso resp auth = (auth, none) := by
  unfold maybeRefreshCodexToken
  by_cases hm : auth.mode ≠ CodexMode.oauth
  · rw [if_pos hm]
  · rw [if_neg hm]
    cases hrt : auth.refreshToken with
    | none => rfl
    | some rt =>
      dsimp only
      rw [if_pos (by simp [h])]

theorem codexRefresh_write_shape (now : Int) (nowIso : String) (resp : HttpResponse)
    (auth auth' : CodexAuth) (written : JSONObj)
    (heq : maybeRefreshCodexToken now nowIso resp auth = (auth', some written)) :
    ∃ tokens tok rt, getRecord auth.raw "tokens" = some tokens ∧
      written = setKey (setKey auth.raw "tokens"
          (.obj (setKey (setKey tokens "access_token" (.str tok))
            "refresh_token" (.str rt))))
        "last_refresh" (.str nowIso) := by
  unfold maybeRefreshCodexToken at heq
  by_cases hm : auth.mode ≠ CodexMode.oauth
  · rw [if_pos hm] at heq
    simp at heq
  · rw [if_neg hm] at heq
    cases hrt : auth.refreshToken with
    | none =>
      rw [hrt] at heq
      simp at heq
    | some rt0 =>
      rw [hrt] at heq
      dsimp only at heq
      by_cases hn : needsRefresh now auth.lastRefresh = true
      case neg =>
        rw [if_pos hn] at heq
        simp at heq
      case pos =>
        rw [if_neg (by simp [hn])] at heq
        by_cases hok : resp.ok = true
        case neg =>
          rw [if_pos hok] at heq
          simp at heq
        case pos =>
          rw [if_neg (by simp [hok])] at heq
          cases hb : resp.body with
          | str s => rw [hb] at heq; simp at heq
          | num q => rw [hb] at heq; simp at heq
          | bool b => rw [hb] at heq; simp at heq
          | null => rw [hb] at heq; simp at heq
          | arr l => rw [hb] at heq; simp at heq
          | obj payload =>
            rw [hb] at heq
            dsimp only at heq
            cases hg : getRecord auth.raw "tokens" with
            | none =>
              rw [hg] at heq
              simp at heq
            | some tokens =>
              rw [hg] at heq
              dsimp only at heq
              simp only [Prod.mk.injEq, Option.some.injEq] at heq
              exact ⟨tokens, _, _, rfl, heq.2.symm⟩

theorem claudeRefresh_noop (now : Int) (resp : HttpResponse) (auth : ClaudeOAuth)
    (h : auth.refreshToken = none ∨ auth.expiresAtMs = none
      ∨ ∃ e, auth.expiresAtMs = some e ∧ (now : ℚ) + 5 * 60 * 1000 ≤ e) :
    maybeRefreshClaudeToken now resp auth = .ok (auth, none) := by
  unfold maybeRefreshClaudeToken
  rcases h with h | h | ⟨e, he, hle⟩
  · rw [h]
  · cases hrt : auth.refreshToken with
    | none => rfl
    | some rt =>
      dsimp only
      rw [h]
      rfl
  · cases hrt : auth.refreshToken with
    | none => rfl
    | some rt =>
      dsimp only
      rw [he]
      dsimp only
      rw [decide_eq_false (not_lt.mpr hle)]
      rfl

theorem claudeRefresh_write_shape (now : Int) (resp : HttpResponse)
    (auth auth' : ClaudeOAuth) (written : JSONObj)
    (heq : maybeRefreshClaudeToken now resp auth = .ok (auth', some written)) :
    ∃ tok rt ei, written = setKey auth.raw "claudeAiOauth"
      (.obj (setKey (setKey (setKey auth.oauth "accessToken" (.str tok))
        "refreshToken" (.str rt)) "expiresAt" (.num ((now : ℚ) + ei * 1000)))) := by
  unfold maybeRefreshClaudeToken at heq
  cases hrt : auth.refreshToken with
  | none =>
    rw [hrt] at heq
    simp at heq
  | some rt0 =>
    rw [hrt] at heq
    dsimp only at heq
    cases hexp : auth.expiresAtMs with
    | none =>
      rw [hexp] at heq
      simp at heq
    | some e =>
      rw [hexp] at heq
      dsimp only at heq
      by_cases hsr : decide (e < (now : ℚ) + 5 * 60 * 1000) = true
      case neg =>
        rw [eq_false_of_ne_true hsr] at heq
        simp at heq
      case pos =>
        rw [hsr] at heq
        simp only [Bool.not_true, Bool.false_eq_true, if_false] at heq
        by_cases hok : resp.ok = true
        case neg =>
          rw [if_pos hok] at heq
          simp at heq
        case pos =>
          rw [if_neg (by simp [hok])] at heq
          cases hb : resp.body with
          | str s => rw [hb] at heq; simp at heq
          | num q => rw [hb] at heq; simp at heq
          | bool b => rw [hb] at heq; simp at heq
          | null => rw [hb] at heq; simp at heq
          | arr l => rw [hb] at heq; simp at heq
          | obj payload =>
            rw [hb] at heq
            dsimp only at heq
            cases hat : (getKey payload "access_token").bind toStringValue with
            | none =>
              rw [hat] at heq
              simp at heq
            | some tok =>
              cases hei : (getKey payload "expires_in").bind toNumber with
              | none =>
                rw [hat, hei] at heq
                simp at heq
              | some ei =>
                rw [hat, hei] at heq
                dsimp only at heq
                simp only [Except.ok.injEq, Prod.mk.injEq, Option.some.injEq] at heq
                exact ⟨tok, _, ei, heq.2.symm⟩

/-- C7: a credential write-back after a successful refresh mutates only the
token/expiry bookkeeping fields inside the original parsed structure —
`tokens.access_token`/`tokens.refresh_token`/`last_refresh` for Codex,
`claudeAiOauth.accessToken`/`.refreshToken`/`.expiresAt` for Claude — and
serializes the whole structure back, preserving every other (in particular
every unrecognized) key and its value verbatim; and a no-op refresh (no
refresh needed) performs no write at all. -/
theorem credential_writeback_frame :
    (∀ (now : Int) (nowIso : String) (resp : HttpResponse) (auth : CodexAuth),
      needsRefresh now auth.lastRefresh = false →
      maybeRefreshCodexToken now nowIso resp auth = (auth, none))
    ∧ (∀ (now : Int) (nowIso : String) (resp : HttpResponse) (auth auth' : CodexAuth)
        (written : JSONObj),
      maybeRefreshCodexToken now nowIso resp auth = (auth', some written) →
      (∀ k, k ≠ "tokens" → k ≠ "last_refresh" → getKey written k = getKey auth.raw k)
        ∧ ∀ tokens, getRecord auth.raw "tokens" = some tokens →
            ∃ tokens', getRecord written "tokens" = some tokens'
              ∧ ∀ k, k ≠ "access_token" → k ≠ "refresh_token" →
                  getKey tokens' k = getKey tokens k)
    ∧ (∀ (now : Int) (resp : HttpResponse) (auth : ClaudeOAuth),
      auth.refreshToken = none ∨ auth.expiresAtMs = none
        ∨ (∃ e, auth.expiresAtMs = some e ∧ (now : ℚ) + 5 * 60 * 1000 ≤ e) →
      maybeRefreshClaudeToken now resp auth = .ok (auth, none))
    ∧ (∀ (now : Int) (resp : HttpResponse) (auth auth' : ClaudeOAuth) (written : JSONObj),
      maybeRefreshClaudeToken now resp auth = .ok (auth', some written) →
      (∀ k, k ≠ "claudeAiOauth" → getKey written k = getKey auth.raw k)
        ∧ ∃ oauth', getRecord written "claudeAiOauth" = some oauth'
            ∧ ∀ k, k ≠ "accessToken" → k ≠ "refreshToken" → k ≠ "expiresAt" →
                getKey oauth' k = getKey auth.oauth k) := by
  refine ⟨fun now nowIso resp auth h => codexRefresh_noop_of_fresh now nowIso resp auth h,
    fun now nowIso resp auth auth' written heq => ?_,
    fun now resp auth h => claudeRefresh_noop now resp auth h,
    fun now resp auth auth' written heq => ?_⟩
  · obtain ⟨tokens, tok, rt, hg, hw⟩ :=
      codexRefresh_write_shape now nowIso resp auth auth' written heq
    subst hw
    constructor
    · intro k hk1 hk2
      rw [getKey_setKey_ne _ _ _ _ (Ne.symm hk2), getKey_setKey_ne _ _ _ _ (Ne.symm hk1)]
    · intro tokens0 hg0
      have htok : tokens = tokens0 := by
        rw [hg] at hg0
        exact Option.some.injEq .. |>.mp hg0
      subst htok
      refine ⟨setKey (setKey tokens "access_token" (.str tok)) "refresh_token" (.str rt),
        ?_, ?_⟩
      · unfold getRecord
        rw [getKey_setKey_ne _ _ _ _ (by decide : "last_refresh" ≠ "tokens"),
          getKey_setKey_self]
      · intro k hk1 hk2
        rw [getKey_setKey_ne _ _ _ _ (Ne.symm hk2), getKey_setKey_ne _ _ _ _ (Ne.symm hk1)]
  · obtain ⟨tok, rt, ei, hw⟩ := claudeRefresh_write_shape now resp auth auth' written heq
    subst hw
    constructor
    · intro k hk
      rw [getKey_setKey_ne _ _ _ _ (Ne.symm hk)]
    · refine ⟨setKey (setKey (setKey auth.oauth "accessToken" (.str tok))
          "refreshToken" (.str rt)) "expiresAt" (.num ((now : ℚ) + ei * 1000)), ?_, ?_⟩
      · unfold getRecord
        rw [getKey_setKey_self]
      · intro k hk1 hk2 hk3
        rw [getKey_setKey_ne _ _ _ _ (Ne.symm hk3), getKey_setKey_ne _ _ _ _ (Ne.symm hk2),
          getKey_setKey_ne _ _ _ _ (Ne.symm hk1)]

/-- Witness for `credential_writeback_frame`: a Codex credential refreshed at
epoch 0 needs no refresh at `now = 0`, so nothing is written. -/
theorem credential_writeback_frame_witness :
    maybeRefreshCodexToken 0 "1970-01-01T00:00:00.000Z"
        { ok := true, status := 200, body := .null } codexAuthFresh
      = (codexAuthFresh, none) :=
  credential_writeback_frame.1 0 "1970-01-01T00:00:00.000Z"
    { ok := true, status := 200, body := .null } codexAuthFresh
    (by
      show needsRefresh 0 (some 0) = false
      exact decide_eq_false (by norm_num))

/-- C1: on the usage-rendering path (no state-setting arguments) the process
prints exactly one JSON payload line to stdout and exits 0, for every
environment — so regardless of any failure in credential loading, token
refresh, usage fetching or parsing recorded there; `renderClaudex` and
`runMain` are total functions, so no exception escapes past the
emit/emit-error point. -/
theorem usage_path_single_payload :
    ∀ (env : Env) (argv : List String),
      parseArgs argv = { provider := none, toggleProvider := false } →
      runMain env argv =
        { outputs := [.json (renderClaudex env (readProvider env.providerFile))],
          writes := [], signals := 0, exitCode := 0 } := by
  intro env argv h
  unfold runMain
  rw [h]
  rfl

/-- Witness for `usage_path_single_payload`: an invocation without arguments
in the fixture environment. -/
theorem usage_path_single_payload_witness :
    runMain env500 [] =
      { outputs := [.json (renderClaudex env500 (readProvider env500.providerFile))],
        writes := [], signals := 0, exitCode := 0 } :=
  usage_path_single_payload env500 [] (by simp [parseArgs, parseArgsGo])

/-- C10: invoked with both `--toggle` and `--provider <name>`, the program
writes the toggled selector value and then overwrites it with the named
provider, prints no plain-text provider name, sends no re-poll signal to the
display host, and continues to the usage path, emitting the JSON payload for
the named provider. -/
theorem toggle_and_provider_combo :
    ∀ (env : Env) (argv : List String) (p : Provider),
      parseArgs argv = { provider := some p, toggleProvider := true } →
      runMain env argv =
        { outputs := [.json (renderClaudex env p)],
          writes := [nextProvider (readProvider env.providerFile), p],
          signals := 0, exitCode := 0 } := by
  intro env argv p h
  have hp : readProvider (some (providerName p ++ "\n")) = p := by
    cases p <;> decide
  unfold runMain
  rw [h]
  dsimp only
  rw [hp]
  rfl

/-- Witness for `toggle_and_provider_combo` at a concrete argument vector. -/
theorem toggle_and_provider_combo_witness :
    runMain env500 ["--toggle", "--provider", "claude"] =
      { outputs := [.json (renderClaudex env500 .claude)],
        writes := [nextProvider (readProvider env500.providerFile), .claude],
        signals := 0, exitCode := 0 } :=
  toggle_and_provider_combo env500 ["--toggle", "--provider", "claude"] .claude
    (by simp [parseArgs, parseArgsGo])

theorem parseRpcUsage_source (r : JSONObj) (u : CodexUsageSnapshot)
    (h : parseRpcUsage r = .ok u) : u.source = .rpc := by
  unfold parseRpcUsage at h
  cases hrl : resolveRpcRateLimits r with
  | none =>
    rw [hrl] at h
    simp at h
  | some rl =>
    rw [hrl] at h
    dsimp only at h
    cases hsp : numField (getRecord rl "primary") "usedPercent" with
    | none =>
      rw [hsp] at h
      simp at h
    | some sp =>
      cases hwp : numField (getRecord rl "secondary") "usedPercent" with
      | none =>
        rw [hsp, hwp] at h
        simp at h
      | some wp =>
        rw [hsp, hwp] at h
        dsimp only at h
        simp only [Except.ok.injEq] at h
        rw [← h]

theorem fetchRpc_source (env : Env) (u : CodexUsageSnapshot)
    (h : fetchCodexUsageViaRpc env = .ok u) : u.source = .rpc := by
  unfold fetchCodexUsageViaRpc at h
  cases ho : env.rpcOutcome with
  | error e =>
    rw [ho] at h
    simp at h
  | ok r =>
    rw [ho] at h
    exact parseRpcUsage_source r u h

/-- C5: the Codex RPC fallback runs exactly when the primary OAuth fetch has
failed (ordered fallback, never when the primary succeeds); when the fallback
succeeds, the emitted payload is built from the RPC snapshot alone — so it is
independent of the primary's error — its source is `rpc` and its tooltip
names the rpc source; when both fail, the error tooltip contains both the
primary and the fallback error message; concretely, with the OAuth endpoint
answering HTTP 500 and the RPC adapter succeeding with session 7%/weekly 55%,
the payload is the RPC snapshot's payload and "OAuth API 500" occurs nowhere
in its text or tooltip. -/
theorem codex_fallback_ordered :
    (∀ (env : Env) (u : CodexUsageSnapshot),
      fetchCodexUsageViaOAuth env = .ok u → (renderCodexTraced env).2 = false)
    ∧ (∀ (env : Env) (m : String),
      fetchCodexUsageViaOAuth env = .error m → (renderCodexTraced env).2 = true)
    ∧ (∀ (env : Env) (m : String) (u : CodexUsageSnapshot),
      fetchCodexUsageViaOAuth env = .error m → fetchCodexUsageViaRpc env = .ok u →
      (renderCodexTraced env).1 = codexUsageToPayload env.now u
        ∧ u.source = .rpc
        ∧ ("Provider: Codex (rpc)").data <:+: ((renderCodexTraced env).1).tooltip.data)
    ∧ (∀ (env : Env) (m1 m2 : String),
      fetchCodexUsageViaOAuth env = .error m1 → fetchCodexUsageViaRpc env = .error m2 →
      m1.data <:+: ((renderCodexTraced env).1).tooltip.data
        ∧ m2.data <:+: ((renderCodexTraced env).1).tooltip.data)
    ∧ (fetchCodexUsageViaOAuth env500 = .error "OAuth API 500"
        ∧ fetchCodexUsageViaRpc env500 = .ok rpcSnap755
        ∧ (renderCodexTraced env500).1 = codexUsageToPayload 0 rpcSnap755
        ∧ rpcSnap755.source = .rpc
        ∧ strContains (codexUsageToPayload 0 rpcSnap755).tooltip "OAuth API 500" = false
        ∧ strContains (codexUsageToPayload 0 rpcSnap755).text "OAuth API 500" = false) := by
  have hoauth500 : fetchCodexUsageViaOAuth env500 = .error "OAuth API 500" := rfl
  have hrpc500 : fetchCodexUsageViaRpc env500 = .ok rpcSnap755 := by
    have hout : env500.rpcOutcome = .ok [("rateLimits", .obj
        [("primary", .obj [("usedPercent", .num 7)]),
         ("secondary", .obj [("usedPercent", .num 55)])])] := rfl
    unfold fetchCodexUsageViaRpc
    rw [hout]
    unfold parseRpcUsage resolveRpcRateLimits
    simp [getRecord, getKey, numField, toNumber, rpcSnap755, clampInt, jsRound]
    norm_num
  refine ⟨fun env u h => ?_, fun env m h => ?_, fun env m u h1 h2 => ?_,
    fun env m1 m2 h1 h2 => ?_, hoauth500, hrpc500, ?_, rfl, by decide, by decide⟩
  · unfold renderCodexTraced
    rw [h]
  · unfold renderCodexTraced
    rw [h]
    dsimp only
    rcases hr : fetchCodexUsageViaRpc env with m2 | u <;> rfl
  · have hsrc : u.source = .rpc := fetchRpc_source env u h2
    have hpayload : (renderCodexTraced env).1 = codexUsageToPayload env.now u := by
      unfold renderCodexTraced
      rw [h1]
      dsimp only
      rw [h2]
    refine ⟨hpayload, hsrc, ?_⟩
    have hline : "Provider: Codex (" ++ sourceName u.source ++ ")"
        = "Provider: Codex (rpc)" := by
      rw [hsrc]
      decide
    have hinf : ("Provider: Codex (" ++ sourceName u.source ++ ")").data
        <:+: (codexUsageToPayload env.now u).tooltip.data := by
      unfold codexUsageToPayload
      dsimp only
      apply mem_data_infix_joinLines
      simp
    rw [hpayload]
    rw [hline] at hinf
    exact hinf
  · have hpayload : (renderCodexTraced env).1
        = errorPayload ("Codex failed\nOAuth: " ++ m1 ++ "\nRPC: " ++ m2) := by
      unfold renderCodexTraced
      rw [h1]
      dsimp only
      rw [h2]
    rw [hpayload]
    unfold errorPayload
    dsimp only
    constructor
    · refine ⟨("ClaudexBar\n-----------\n" ++ "Codex failed\nOAuth: ").data,
        ("\nRPC: " ++ m2).data, ?_⟩
      simp [strData_append, List.append_assoc]
    · refine ⟨("ClaudexBar\n-----------\n" ++ ("Codex failed\nOAuth: " ++ m1)
        ++ "\nRPC: ").data, [], ?_⟩
      simp [strData_append, List.append_assoc]
  · unfold renderCodexTraced
    rw [hoauth500]
    dsimp only
    rw [hrpc500]
    rfl

/-- Witness for `codex_fallback_ordered`: in the fixture environment the
fallback was invoked (the primary failed). -/
theorem codex_fallback_ordered_witness :
    (renderCodexTraced env500).2 = true :=
  codex_fallback_ordered.2.1 env500 "OAuth API 500" rfl

end ClaudexBar
